import Mathlib

/-!
Shallow embedding of the faceted-query engine in `web.go`:
the catalog data model, the `Fits` predicate builder and result classifier,
the `Search` match index, and the `Fit` single-configuration resolve guard.
Strings are modelled through their character lists so that every operation
evaluates by kernel reduction; Go's `strings`/`strconv` helpers are
re-implemented below with the same observable behaviour on the inputs the
claims exercise.
-/

namespace EF

/-- Go `strings.ToLower`: character-wise lowercasing (ASCII range, which is
all the concrete inputs below use). -/
def goLower (s : String) : String := ⟨s.data.map Char.toLower⟩

/-- Drop whitespace from both ends of a character list. -/
def trimList (cs : List Char) : List Char :=
  ((cs.dropWhile Char.isWhitespace).reverse.dropWhile Char.isWhitespace).reverse

/-- Go `strings.TrimSpace`. -/
def goTrim (s : String) : String := ⟨trimList s.data⟩

/-- Go `len(s)` on a string: its UTF-8 byte length. -/
def byteLen (s : String) : Nat := s.data.foldl (fun n c => n + c.utf8Size) 0

/-- Whether the first list is an initial segment of the second. -/
def leadsList : List Char → List Char → Bool
  | [], _ => true
  | _ :: _, [] => false
  | c :: cs, d :: ds => c == d && leadsList cs ds

/-- Whether `sub` occurs contiguously inside `s` (character-list level). -/
def listContains (sub : List Char) : List Char → Bool
  | [] => sub.isEmpty
  | c :: rest => leadsList sub (c :: rest) || listContains sub rest

/-- Go `strings.Contains(s, sub)`. -/
def goContains (s sub : String) : Bool := listContains sub.data s.data

/-- Accumulator pass behind `goFields`: collects maximal runs of
non-whitespace characters. -/
def fieldsAux : List Char → List Char → List (List Char)
  | [], acc => if acc.isEmpty then [] else [acc.reverse]
  | c :: rest, acc =>
    if c.isWhitespace then
      if acc.isEmpty then fieldsAux rest [] else acc.reverse :: fieldsAux rest []
    else fieldsAux rest (c :: acc)

/-- Go `strings.Fields`: whitespace-separated subterms, no empties. -/
def goFields (s : String) : List String := (fieldsAux s.data []).map (fun w => ⟨w⟩)

/-- Digit-run value; `none` when a non-digit appears. -/
def digitsVal : List Char → Nat → Option Nat
  | [], n => some n
  | c :: r, n => if c.isDigit then digitsVal r (n * 10 + (c.toNat - 48)) else none

/-- Go `strconv.Atoi` with the error discarded, as the callers in `web.go` do:
a string that fails to parse yields 0. -/
def goAtoi (s : String) : Int :=
  let core : List Char → Int → Int := fun cs sign =>
    match cs with
    | [] => 0
    | _ :: _ =>
      match digitsVal cs 0 with
      | some n => sign * (Int.ofNat n)
      | none => 0
  match s.data with
  | '-' :: rest => core rest (-1)
  | '+' :: rest => core rest 1
  | cs => core cs 1

/-- Catalog entity (`Item` in the source): only the fields `web.go` reads. -/
structure Item where
  ID : Int
  Name : String
  Lower : String
  Group : Int
deriving DecidableEq

/-- Catalog group: only the fields `web.go` reads. -/
structure Group where
  ID : Int
  Name : String
  Category : Int
deriving DecidableEq

/-- Go's zero value for `Item`, produced by a missing map key. -/
def zeroItem : Item := ⟨0, "", "", 0⟩

/-- Go's zero value for `Group`, produced by a missing map key. -/
def zeroGroup : Group := ⟨0, "", 0⟩

/-- The in-memory catalog (`s.Global`): entity and group maps, modelled as
association lists in a fixed iteration order, plus the consumable-category
set. -/
structure Global where
  Items : List (Int × Item)
  Groups : List (Int × Group)
  ChargeCategories : List Int
deriving DecidableEq

/-- Go `s.Global.Items[id]`: zero value when the key is missing. -/
def getItem (g : Global) (id : Int) : Item := (g.Items.lookup id).getD zeroItem

/-- Go `s.Global.Groups[id]`: zero value when the key is missing. -/
def getGroup (g : Global) (id : Int) : Group := (g.Groups.lookup id).getD zeroGroup

/-- Modelled from the spec: `Group.IsCharge` is declared outside the shown
source file; section 6 of the spec fixes a static consumable-category set and
defines the classification as membership of the group's `Category` in that
set. The set itself is carried as `Global.ChargeCategories`. -/
def IsCharge (g : Global) (gr : Group) : Bool := g.ChargeCategories.contains gr.Category

/-- The request form, as `Fits` reads it: `r.Form.Get("ship")` (empty string
when absent) and the repeated `item` and `group` values. -/
structure Form where
  ship : String
  item : List String
  group : List String
deriving DecidableEq

/-- One conjunct of the generated `WHERE` clause, in the shape `Fits` writes
into its SQL string builder. -/
inductive Clause where
  | containsOne (id : Int)
  | containsArr (ids : List Int)
  | anyOf (ids : List Int)
deriving DecidableEq

/-- One bound SQL parameter, in the order `Fits` appends to `args`. -/
inductive Arg where
  | int (n : Int)
  | intArray (ns : List Int)
deriving DecidableEq

/-- The filter echo `ret.Filter`: a map with the three keys `web.go` uses. -/
structure Echo where
  ship : List Item
  item : List Item
  group : List Item
deriving DecidableEq

/-- The query `Fits` hands to the store: clause list, bound parameters,
filter echo, and the fixed `ORDER BY killmail DESC LIMIT 100` tail. -/
structure Query where
  clauses : List Clause
  args : List Arg
  Filter : Echo
  orderKillmailDesc : Bool
  limit : Nat
deriving DecidableEq

/-- Go's `int32(n)` conversion on an `int`: two's-complement truncation into
the range from -2^31 up to (but excluding) 2^31. -/
def toInt32 (n : Int) : Int := (n + 2147483648) % 4294967296 - 2147483648

/-- The catalog ids classified under group `gid`, in catalog iteration order
(the inner loop of the group facet, `web.go` lines 165-173); `gid` is
expected already truncated, as the source compares against `item.Group`
(an int32) after `gid := int32(groupid)`. -/
def groupMembers (g : Global) (gid : Int) : List Int :=
  (g.Items.filter (fun p => p.2.Group == gid)).map (fun p => p.1)

/-- The predicate builder of `Fits` (`web.go` lines 124-187): the ship facet
adds one containment clause and echoes the resolved entity; the item facet
adds one array-containment clause over all positive ids and echoes each
entity; each positive group facet value adds one disjunction over the
group's members, one bound parameter per member, and echoes the group.
The positivity guards run on the full parsed `int`; catalog lookups
(`Items[int32(ship)]` line 142, `Items[int32(itemid)]` line 151,
`gid := int32(groupid)` line 162) wrap to int32 first, while the bound
parameters of the ship and item facets keep the un-truncated ints. -/
def Fits (g : Global) (form : Form) : Query :=
  let ship := goAtoi form.ship
  let shipClauses := if ship > 0 then [Clause.containsOne ship] else []
  let shipArgs := if ship > 0 then [Arg.int ship] else []
  let shipEcho := if ship > 0 then [getItem g (toInt32 ship)] else []
  let items := (form.item.map goAtoi).filter (fun n => 0 < n)
  let itemEcho := items.map (fun n => getItem g (toInt32 n))
  let itemClauses := if items.isEmpty then [] else [Clause.containsArr items]
  let itemArgs := if items.isEmpty then [] else [Arg.intArray items]
  let groups := (form.group.map goAtoi).filter (fun n => 0 < n)
  let groupClauses := groups.map (fun gid => Clause.anyOf (groupMembers g (toInt32 gid)))
  let groupArgs := groups.flatMap (fun gid => (groupMembers g (toInt32 gid)).map Arg.int)
  let groupEcho := groups.map (fun gid =>
    let gr := getGroup g (toInt32 gid)
    (⟨gr.ID, gr.Name, "", 0⟩ : Item))
  ⟨shipClauses ++ itemClauses ++ groupClauses,
   shipArgs ++ itemArgs ++ groupArgs,
   ⟨shipEcho, itemEcho, groupEcho⟩,
   true, 100⟩

/-- A stored configuration row of the `fits` table: the searchable component
set `items` targeted by the `@>` tests, and the per-slot id lists. -/
structure FitRow where
  killmail : Int
  ship : Int
  cost : Int
  items : List Int
  hi : List Int
  med : List Int
  low : List Int
deriving DecidableEq

/-- Semantics of one generated clause against a row: every `@>` test is
containment in the row's component set. -/
def evalClause (f : FitRow) : Clause → Bool
  | Clause.containsOne id => f.items.contains id
  | Clause.containsArr ids => ids.all (fun id => f.items.contains id)
  | Clause.anyOf ids => ids.any (fun id => f.items.contains id)

/-- Semantics of the generated `WHERE TRUE AND ...` conjunction. -/
def evalWhere (q : Query) (f : FitRow) : Bool := q.clauses.all (evalClause f)

/-- Insertion step for sorting rows by killmail descending. -/
def insertByKillmailDesc (f : FitRow) : List FitRow → List FitRow
  | [] => [f]
  | r :: rest =>
    if r.killmail ≤ f.killmail then f :: r :: rest else r :: insertByKillmailDesc f rest

/-- Sort rows by killmail descending (`ORDER BY killmail DESC`). -/
def sortByKillmailDesc : List FitRow → List FitRow
  | [] => []
  | f :: rest => insertByKillmailDesc f (sortByKillmailDesc rest)

/-- Store-side meaning of the query `Fits` builds: filter by the clause
conjunction, order by killmail descending, take the row limit. -/
def runQuery (q : Query) (store : List FitRow) : List FitRow :=
  (sortByKillmailDesc (store.filter (fun f => evalWhere q f))).take q.limit

/-- The result classifier's per-slot loop (`web.go` lines 198-204, repeated
for med and low): resolve each id through the catalog (zero value on a miss)
and skip entities whose group is classified as a charge. -/
def classifySlot (g : Global) : List Int → List Item
  | [] => []
  | v :: rest =>
    if IsCharge g (getGroup g (getItem g v).Group) then classifySlot g rest
    else getItem g v :: classifySlot g rest

/-- The classifier restated in the spec's words: resolve every id, then drop
the entities whose group is consumable. -/
def classifySlotSpec (g : Global) (ids : List Int) : List Item :=
  (ids.map (getItem g)).filter (fun it => !(IsCharge g (getGroup g it.Group)))

/-- The static category-to-type-tag table of `web.go` lines 223-228. -/
def searchCategories : List (Int × String) :=
  [(6, "ship"), (7, "item"), (8, "item"), (32, "item")]

/-- A search result triple. -/
structure SearchResult where
  type : String
  Name : String
  ID : Int
deriving DecidableEq

/-- The search response body (`ret` in `Search`). -/
structure SearchRet where
  Search : String
  Results : List SearchResult
deriving DecidableEq

/-- The inner loop of the `match` closure (`web.go` lines 251-258): check
every subterm, stopping at the first that is not contained. -/
def containsAllLoop (s : String) : List String → Bool
  | [] => true
  | t :: rest => if goContains s t then containsAllLoop s rest else false

/-- The `match` closure of `Search` (`web.go` lines 247-259): a contiguous
occurrence of the whole term, or else every subterm contained. -/
def matchTerm (search : String) (fields : List String) (s : String) : Bool :=
  if goContains s search then true else containsAllLoop s fields

/-- The group scan of `Search` (`web.go` lines 260-269): every group whose
lowercased name matches contributes one `group`-tagged result; no bound. -/
def groupLoop (m : String → Bool) : List (Int × Group) → List SearchResult
  | [] => []
  | (id, gr) :: rest =>
    if m (goLower gr.Name) then ⟨"group", gr.Name, id⟩ :: groupLoop m rest
    else groupLoop m rest

/-- The type tag of an entity: the category table lookup with Go's
missing-key default of the empty string. -/
def entityTag (g : Global) (item : Item) : String :=
  (searchCategories.lookup (getGroup g item.Group).Category).getD ""

/-- The entity scan of `Search` (`web.go` lines 270-284): non-matching
entities are skipped entirely (the `continue` bypasses the break check);
matching entities with a mapped category are appended; after either kind of
matching entity the loop breaks once the accumulated result count exceeds
50. `count` is the length of the result list accumulated so far. -/
def entityLoop (g : Global) (m : String → Bool) : List (Int × Item) → Nat → List SearchResult
  | [], _ => []
  | (id, item) :: rest, count =>
    if m item.Lower then
      if entityTag g item = "" then
        if count > 50 then [] else entityLoop g m rest count
      else
        if count + 1 > 50 then [⟨entityTag g item, item.Name, id⟩]
        else ⟨entityTag g item, item.Name, id⟩ :: entityLoop g m rest (count + 1)
    else entityLoop g m rest count

/-- The `Search` operation (`web.go` lines 230-286), returning the pair of
Go results `(interface value, error)`: a term whose normalized form is
shorter than 3 bytes yields `(nil, nil)`; otherwise the group scan runs
unbounded, then the entity scan continues from the accumulated count. -/
def Search (g : Global) (term : String) : Option SearchRet × Option String :=
  let s := goLower (goTrim term)
  if byteLen s < 3 then (none, none)
  else
    let fields := goFields s
    let m := matchTerm s fields
    let groupResults := groupLoop m g.Groups
    (some ⟨s, groupResults ++ entityLoop g m g.Items groupResults.length⟩, none)

/-- The result list of a `Search` outcome (empty for the nil result). -/
def searchResultList (p : Option SearchRet × Option String) : List SearchResult :=
  match p.1 with
  | some r => r.Results
  | none => []

/-- A row of the `killmails` table as `Fit` selects it. -/
structure KMRow where
  id : Int
  km : String
  zkb : String
deriving DecidableEq

/-- The guard of the `Fit` resolve operation (`web.go` lines 75-84): a
missing id fails immediately with the invalid-input error; otherwise the
store is queried once. The first component records the ids queried from the
store; the `Except` carries the error outcome. -/
def Fit (db : String → Except String KMRow) (id : String) : List String × Except String KMRow :=
  if id = "" then ([], Except.error "missing fit id")
  else
    match db id with
    | Except.error e => ([id], Except.error e)
    | Except.ok row => ([id], Except.ok row)

/-- A catalog with no entities and no groups. -/
def gSmall : Global := ⟨[], [], []⟩

/-- A catalog with 52 entities all named `aaa`, classified under group 0
whose category 6 maps to the `ship` type tag; the group's own name matches
no search below. -/
def gBig : Global :=
  ⟨(List.range 52).map (fun i => ((i : Int), ⟨(i : Int), "aaa", "aaa", 0⟩)),
   [(0, ⟨0, "zzz", 6⟩)], [8]⟩

/-- A two-entity catalog: entity 100 sits in module group 1 (category 7,
not consumable), entity 200 in charge group 2 (category 8, consumable). -/
def gCat : Global :=
  ⟨[(100, ⟨100, "mod", "mod", 1⟩), (200, ⟨200, "ammo", "ammo", 2⟩)],
   [(1, ⟨1, "modules", 7⟩), (2, ⟨2, "charges", 8⟩)], [8]⟩

/-- A form with no facets set. -/
def formEmpty : Form := ⟨"", [], []⟩

/-- A single store row whose component set is `[4]`. -/
def row1 : FitRow := ⟨1, 2, 3, [4], [], [], []⟩

end EF

namespace EF

theorem containsAllLoop_eq_all (s : String) :
    ∀ l : List String, containsAllLoop s l = l.all (fun t => goContains s t)
  | [] => rfl
  | t :: rest => by
    cases hc : goContains s t <;>
      simp [containsAllLoop, hc, containsAllLoop_eq_all s rest]

/-- C2: the match predicate accepts a candidate exactly when it contains the
whole normalized term contiguously or contains every whitespace-separated
subterm; `warp core` matches `warp core stabilizer` and `core warp booster`
but not `warp`. -/
theorem c2_match_predicate :
    (∀ T S : String, matchTerm T (goFields T) S =
      (goContains S T || (goFields T).all (fun t => goContains S t))) ∧
    matchTerm "warp core" (goFields "warp core") "warp core stabilizer" = true ∧
    matchTerm "warp core" (goFields "warp core") "core warp booster" = true ∧
    matchTerm "warp core" (goFields "warp core") "warp" = false := by
  refine ⟨fun T S => ?_, by decide, by decide, by decide⟩
  cases hc : goContains S T <;>
    simp [matchTerm, hc, containsAllLoop_eq_all]

end EF

namespace EF

theorem entityLoop_length_le (g : Global) (m : String → Bool) :
    ∀ (l : List (Int × Item)) (c : Nat), (entityLoop g m l c).length ≤ max (51 - c) 1
  | [], c => by simp [entityLoop]
  | (id, item) :: rest, c => by
    have ih1 := entityLoop_length_le g m rest c
    have ih2 := entityLoop_length_le g m rest (c + 1)
    simp only [entityLoop]
    split_ifs <;> (try simp only [List.length_nil, List.length_cons]) <;> omega

theorem groupLoop_eq_filter (m : String → Bool) :
    ∀ l : List (Int × Group), groupLoop m l =
      (l.filter (fun p => m (goLower p.2.Name))).map
        (fun p => (⟨"group", p.2.Name, p.1⟩ : SearchResult))
  | [] => rfl
  | (id, gr) :: rest => by
    cases hc : m (goLower gr.Name) <;>
      simp [groupLoop, hc, List.filter_cons, groupLoop_eq_filter m rest]

/-- C3 counterexample: with no matching groups and 52 matching entities the
entity scan contributes 51 results, exceeding the claimed bound of 50. -/
theorem c3_counterexample :
    (groupLoop (matchTerm "aaa" (goFields "aaa")) gBig.Groups).length = 0 ∧
    (searchResultList (Search gBig "aaa")).length = 51 := by decide

/-- C3 amended: the entity scan contributes at most `max (51 - c) 1` results
when `c` results are already accumulated — hence at most 51 in any search —
stopping once the accumulated count exceeds 50; the group scan is the plain
unbounded filter-and-tag of every catalog group, never truncated. -/
theorem c3_entity_cap (g : Global) (m : String → Bool) :
    (∀ (l : List (Int × Item)) (c : Nat),
      (entityLoop g m l c).length ≤ max (51 - c) 1) ∧
    groupLoop m g.Groups =
      (g.Groups.filter (fun p => m (goLower p.2.Name))).map
        (fun p => (⟨"group", p.2.Name, p.1⟩ : SearchResult)) ∧
    (entityLoop g m g.Items (groupLoop m g.Groups).length).length ≤ 51 := by
  refine ⟨entityLoop_length_le g m, groupLoop_eq_filter m g.Groups, ?_⟩
  have h := entityLoop_length_le g m g.Items (groupLoop m g.Groups).length
  omega

/-- C4 counterexample: a two-character term yields the nil result, not a
response carrying the echoed normalized term with an empty result list. -/
theorem c4_counterexample :
    (Search gSmall "ab").1 = none ∧
    (Search gSmall "ab").1 ≠ some ⟨goLower (goTrim "ab"), []⟩ := by decide

/-- C4 amended: a raw term whose normalized form is shorter than 3 bytes
makes the search operation return the nil result and nil error — no echoed
term, no results — independently of the catalog, and not as an error. -/
theorem c4_short_term (g g' : Global) (raw : String)
    (h : byteLen (goLower (goTrim raw)) < 3) :
    Search g raw = (none, none) ∧ Search g raw = Search g' raw := by
  have h1 : Search g raw = (none, none) := by simp [Search, h]
  have h2 : Search g' raw = (none, none) := by simp [Search, h]
  exact ⟨h1, h1.trans h2.symm⟩

/-- Witness for C4 amended: the term `ab` on two different catalogs. -/
theorem c4_short_term_witness :
    Search gSmall "ab" = (none, none) ∧ Search gSmall "ab" = Search gBig "ab" :=
  c4_short_term gSmall gBig "ab" (by decide)

/-- C5: with no positive ship, item or group facet the built query has no
clauses and no bound parameters, keeps the fixed descending killmail order
and limit 100, and its semantics returns the top 100 rows unfiltered. -/
theorem c5_empty_selection (g : Global) (form : Form)
    (hship : goAtoi form.ship ≤ 0)
    (hitem : ∀ s ∈ form.item, goAtoi s ≤ 0)
    (hgroup : ∀ s ∈ form.group, goAtoi s ≤ 0) :
    (Fits g form).clauses = [] ∧ (Fits g form).args = [] ∧
    (Fits g form).limit = 100 ∧ (Fits g form).orderKillmailDesc = true ∧
    ∀ store : List FitRow,
      runQuery (Fits g form) store = (sortByKillmailDesc store).take 100 := by
  have hif : ¬ (goAtoi form.ship > 0) := by omega
  have hi : (form.item.map goAtoi).filter (fun n => 0 < n) = [] := by
    refine List.filter_eq_nil_iff.mpr ?_
    intro n hn
    rcases List.mem_map.mp hn with ⟨s, hs, rfl⟩
    have := hitem s hs
    simp only [decide_eq_true_eq]
    omega
  have hg : (form.group.map goAtoi).filter (fun n => 0 < n) = [] := by
    refine List.filter_eq_nil_iff.mpr ?_
    intro n hn
    rcases List.mem_map.mp hn with ⟨s, hs, rfl⟩
    have := hgroup s hs
    simp only [decide_eq_true_eq]
    omega
  have hcl : (Fits g form).clauses = [] := by
    simp [Fits, hif, hi, hg]
  have har : (Fits g form).args = [] := by
    simp [Fits, hif, hi, hg]
  refine ⟨hcl, har, rfl, rfl, fun store => ?_⟩
  have hfil : store.filter (fun f => evalWhere (Fits g form) f) = store := by
    refine List.filter_eq_self.mpr ?_
    intro f _
    simp [evalWhere, hcl]
  have hlim : (Fits g form).limit = 100 := rfl
  simp [runQuery, hfil, hlim]

/-- Witness for C5: the empty form on a concrete catalog and one-row store. -/
theorem c5_empty_selection_witness :
    (Fits gSmall formEmpty).clauses = [] ∧ (Fits gSmall formEmpty).args = [] ∧
    (Fits gSmall formEmpty).limit = 100 ∧
    (Fits gSmall formEmpty).orderKillmailDesc = true ∧
    runQuery (Fits gSmall formEmpty) [row1] = (sortByKillmailDesc [row1]).take 100 := by
  have h := c5_empty_selection gSmall formEmpty (by decide) (by simp [formEmpty])
    (by simp [formEmpty])
  exact ⟨h.1, h.2.1, h.2.2.1, h.2.2.2.1, h.2.2.2.2 [row1]⟩

end EF

namespace EF

/-- C6: the per-slot classifier equals resolve-then-filter: every slot id is
resolved through the catalog and every entity whose group is consumable is
dropped; concretely, high slots `[100, 200]` with entity 200 in a consumable
group classify to entity 100 alone. -/
theorem c6_classifier_drops_charges :
    (∀ (g : Global) (ids : List Int), classifySlot g ids = classifySlotSpec g ids) ∧
    classifySlot gCat [100, 200] = [⟨100, "mod", "mod", 1⟩] := by
  refine ⟨fun g ids => ?_, by decide⟩
  induction ids with
  | nil => rfl
  | cons v rest ih =>
    cases hc : IsCharge g (getGroup g (getItem g v).Group) <;>
      simp [classifySlot, classifySlotSpec, List.filter_cons, hc] at ih ⊢ <;>
      exact ih

/-- C7 counterexample: identifier 999 resolves to nothing in the catalog,
yet the classified list for `[999]` is the one-element zero-value entity
rather than the empty list the claim requires. -/
theorem c7_counterexample :
    gCat.Items.lookup 999 = none ∧
    classifySlot gCat [999] = [zeroItem] ∧
    classifySlot gCat [999] ≠ [] := by decide

/-- C7 amended: an unresolvable slot identifier resolves to the zero-value
entity, which is appended to the classified list whenever the zero group is
not classified consumable; no error is raised in either case. -/
theorem c7_unresolved_zero_value (g : Global) (v : Int) (rest : List Int)
    (hmiss : g.Items.lookup v = none)
    (hzero : IsCharge g (getGroup g zeroItem.Group) = false) :
    classifySlot g (v :: rest) = zeroItem :: classifySlot g rest := by
  have hv : getItem g v = zeroItem := by simp [getItem, hmiss]
  simp [classifySlot, hv, hzero]

/-- Witness for C7 amended: identifier 999 in the two-entity catalog. -/
theorem c7_unresolved_zero_value_witness :
    classifySlot gCat [999, 100] = zeroItem :: classifySlot gCat [100] :=
  c7_unresolved_zero_value gCat 999 [100] (by decide) (by decide)

/-- C9: the resolve operation with the empty configuration identifier fails
immediately with the invalid-input error and issues no store query. -/
theorem c9_missing_id (db : String → Except String KMRow) :
    Fit db "" = ([], Except.error "missing fit id") := rfl

/-- C10: the 3-character minimum is enforced on the UTF-8 byte length of the
normalized term — the search is rejected exactly when that byte length is
below 3 — so the two-character multi-byte term of 4 bytes is not rejected
and the scan proceeds. -/
theorem c10_byte_length_minimum :
    (∀ (g : Global) (raw : String),
      (Search g raw).1 = none ↔ byteLen (goLower (goTrim raw)) < 3) ∧
    (goLower (goTrim "éé")).data.length = 2 ∧
    3 ≤ byteLen (goLower (goTrim "éé")) ∧
    (Search gSmall "éé").1.isSome = true := by
  refine ⟨fun g raw => ?_, by decide, by decide, by decide⟩
  by_cases h : byteLen (goLower (goTrim raw)) < 3
  · simp [Search, h]
  · simp [Search, h]

end EF
